import Mathlib

set_option maxHeartbeats 1600000

/-! Verification development for the session-log / transcript / checkpoint-rewind
and workspace-snapshot subsystem implemented in
src/services/claude/workspaceSnapshots.ts (functions readJSONL, convertMessage,
generateSummary, ClaudeSessionService.getSession / restoreCheckpoint /
_scanSessionInfo, and recordWorkspaceSnapshotForTool /
loadWorkspaceSnapshotsByToolUseId / restoreWorkspaceFilesFromSnapshots).

The embedding works on already-parsed records (readJSONL line parsing and the
concrete file paths are out of scope of the claims).  JavaScript free-form
values are modelled only as far as the source inspects them; every such
modelling choice is documented on the definition it concerns. -/

/-- The type tag of a session log record (field SessionMessage.type in the source). -/
inductive MsgType where
  | user
  | assistant
  | attachment
  | system
  | summary
deriving DecidableEq, Repr

/-- The JavaScript value stored in the text field of a structured content item.
The source reads it as (item.text || fallback) and then calls .replace on it, so
only three behaviours are distinguishable: a string (the empty string is falsy),
any other falsy value (undefined, null, 0, false, NaN), and a truthy non-string
value, on which .replace raises a TypeError. -/
inductive JsTextVal where
  | strVal (s : String)
  | falsyNonStr
  | truthyNonStr
deriving DecidableEq, Repr

/-- One element of a structured (array) message content, as far as the source
inspects it: an object whose type field is the string text, an object whose
type field is the string tool_use (with its name and id fields, None standing
for an absent or non-string field), a nullish value (null or undefined, on
which any property access raises a TypeError), or any other value (property
access is safe and its type tag matches neither text nor tool_use). -/
inductive ContentItem where
  | text (t : JsTextVal)
  | toolUse (name : Option String) (id : Option String)
  | nullish
  | other
deriving DecidableEq, Repr

/-- The content field of a message payload: a string, an array, or anything
else (including an absent field); the source only ever branches on
(typeof content === string) and Array.isArray(content). -/
inductive MsgContent where
  | str (s : String)
  | arr (items : List ContentItem)
  | other
deriving DecidableEq, Repr

/-- The free-form msg.message object, as far as the source reads it:
its content field and its id field (used by convertMessage for assistants). -/
structure MsgPayload where
  content : MsgContent
  id : Option String
deriving DecidableEq, Repr

/-- One parsed log record (interface SessionMessage in the source).  Optional
boolean flags are modelled as Bool with false standing for an absent field
(the source only uses them in truthiness tests).  toolUseResult is free-form
data that the source carries through convertMessage without inspecting it; it
is modelled as an opaque optional string. -/
structure SessionMessage where
  uuid : String
  sessionId : String
  parentUuid : Option String
  timestamp : String
  type : MsgType
  message : Option MsgPayload
  isMeta : Bool
  isSidechain : Bool
  leafUuid : Option String
  summary : Option String
  toolUseResult : Option String
  gitBranch : Option String
  cwd : Option String
deriving DecidableEq, Repr

/-- Default record used only to give List.getD a value at provably
in-bounds indices. -/
def dfltMsg : SessionMessage :=
  { uuid := ""
    sessionId := ""
    parentUuid := none
    timestamp := ""
    type := MsgType.user
    message := none
    isMeta := false
    isSidechain := false
    leafUuid := none
    summary := none
    toolUseResult := none
    gitBranch := none
    cwd := none }

/-- The external message produced by convertMessage for the webview.  The
source emits plain objects with a type tag; the constant
parent_tool_use_id: null field carries no information and is omitted. -/
inductive ConvMessage where
  | user (message : Option MsgPayload) (session_id : String)
      (toolUseResult : Option String)
  | assistant (message : Option MsgPayload) (session_id : String)
      (uuid : Option String)
deriving DecidableEq, Repr

/-- convertMessage from the source: meta records are dropped, user and
assistant records are projected, everything else (system, attachment,
summary) yields undefined. -/
def convertMessage (msg : SessionMessage) : Option ConvMessage :=
  if msg.isMeta then none
  else
    match msg.type with
    | MsgType.user =>
        some (ConvMessage.user msg.message msg.uuid msg.toolUseResult)
    | MsgType.assistant =>
        some (ConvMessage.assistant msg.message msg.uuid
          (msg.message.bind (fun p => p.id)))
    | _ => none

/-- Whether a record survives convertMessage (used to build the visible
transcript). -/
def isVisibleRecord (m : SessionMessage) : Bool :=
  (convertMessage m).isSome

/-- The parentUuid field as the source tests it: both the walk loop and the
cut-index computation guard with a JavaScript truthiness test
(if current.parentUuid), so an empty string behaves exactly like an absent
field and is normalised to none here. -/
def jsParent (m : SessionMessage) : Option String :=
  match m.parentUuid with
  | none => none
  | some p => if p = "" then none else some p

/-- messageMap.get p for the uuid index built by
(for msg of messages) messageMap.set(msg.uuid, msg): Map.set overwrites, so a
lookup returns the last record in file order carrying that uuid. -/
def lookupUuid (msgs : List SessionMessage) (p : String) : Option SessionMessage :=
  (msgs.filter (fun m => decide (m.uuid = p))).getLast?

/-- The backward walk of getSession / restoreCheckpoint: start from a record,
repeatedly move to the parent found in the uuid index, prepending each visited
record; stop when the parent reference is falsy or unresolvable.  The source
loop has no cycle detection and diverges on a cyclic parent graph; the fuel
argument makes the embedding total, with none standing for divergence.  A
terminating run visits pairwise distinct uuids and therefore at most
(number of records) of them, so the fuel used by buildChain is enough for
every run that terminates in the source. -/
def chainWalk (msgs : List SessionMessage) : Nat → SessionMessage → Option (List SessionMessage)
  | 0, _ => none
  | Nat.succ fuel, cur =>
    match jsParent cur with
    | none => some [cur]
    | some p =>
      match lookupUuid msgs p with
      | none => some [cur]
      | some parent =>
        match chainWalk msgs fuel parent with
        | none => none
        | some rest => some (rest ++ [cur])

/-- The transcript reconstruction shared by getSession and restoreCheckpoint:
an empty file yields an empty chain (the source returns early), otherwise the
last record in file order is the leaf and the chain is the backward walk from
it, ordered root to leaf. -/
def buildChain (msgs : List SessionMessage) : Option (List SessionMessage) :=
  match msgs.getLast? with
  | none => some []
  | some leaf => chainWalk msgs (msgs.length + 1) leaf

/-- getSession on an already-parsed log: build the chain, then project and
filter through convertMessage (map followed by a truthiness filter is exactly
filterMap).  none stands for the divergence of the source walk on a cyclic
log; the surrounding catch of the source only turns exceptions, which cannot
occur in this pure part, into an empty list. -/
def getSession (msgs : List SessionMessage) : Option (List ConvMessage) :=
  match buildChain msgs with
  | none => none
  | some chain => some (chain.filterMap convertMessage)

/-- Result of a JavaScript computation that may throw (used for
generateSummary and _scanSessionInfo, whose bodies can raise a TypeError on
malformed free-form content). -/
inductive JsResult (α : Type) where
  | thrown : JsResult α
  | ok (a : α) : JsResult α
deriving DecidableEq, Repr

/-- Map over a non-throwing JsResult. -/
def JsResult.map {α β : Type} (f : α → β) : JsResult α → JsResult β
  | JsResult.thrown => JsResult.thrown
  | JsResult.ok a => JsResult.ok (f a)

/-- A record that counts as a candidate in generateSummary's selection loop:
a user record that is not meta. -/
def isPlainUser (m : SessionMessage) : Bool :=
  decide (m.type = MsgType.user) && !m.isMeta

/-- The selection loop at the top of generateSummary, translated literally:
it overwrites the candidate on every non-meta user record and breaks at the
first other record once a candidate exists, so it retains the last record of
the first consecutive run of non-meta user records (not the first such
record). -/
def findFirstUserRun : List SessionMessage → Option SessionMessage → Option SessionMessage
  | [], acc => acc
  | m :: rest, acc =>
    if isPlainUser m then findFirstUserRun rest (some m)
    else
      match acc with
      | some fm => some fm
      | none => findFirstUserRun rest none

/-- Text extraction of generateSummary for the selected record: a string
content is used directly; an array content is filtered to its text-typed
items (the filter callback accesses item.type, so a nullish item raises) and
the text field of the last one is taken with a fallback of the fixed
sentinel; a truthy non-string text value raises at the later .replace call;
everything else yields the sentinel. -/
def extractSummaryText (fm : SessionMessage) : JsResult String :=
  match fm.message with
  | none => JsResult.ok ("No prompt")
  | some payload =>
    match payload.content with
    | MsgContent.str s => JsResult.ok s
    | MsgContent.arr items =>
      if items.any (fun it => decide (it = ContentItem.nullish)) then JsResult.thrown
      else
        match (items.filter (fun it =>
            match it with
            | ContentItem.text _ => true
            | _ => false)).getLast? with
        | none => JsResult.ok ("No prompt")
        | some it =>
          match it with
          | ContentItem.text (JsTextVal.strVal s) =>
              if s = "" then JsResult.ok ("No prompt") else JsResult.ok s
          | ContentItem.text JsTextVal.falsyNonStr => JsResult.ok ("No prompt")
          | ContentItem.text JsTextVal.truthyNonStr => JsResult.thrown
          | _ => JsResult.ok ("No prompt")
    | MsgContent.other => JsResult.ok ("No prompt")

/-- Whitespace for the trim step (the ASCII whitespace characters; the
JavaScript trim also strips rarer Unicode space characters, which no claim
exercises). -/
def jsWhitespaceChar (c : Char) : Bool :=
  decide (c = ' ') || decide (c = '\t') || decide (c = '\n') || decide (c = '\r')

/-- text.replace(/\n/g, " "): every newline character becomes a space (the
pattern is a single character, so the replacement is a per-character map). -/
def collapseNewlines (t : String) : String :=
  String.mk (t.data.map (fun c => if c = '\n' then ' ' else c))

/-- String.prototype.trim: strip leading and trailing whitespace. -/
def jsTrim (s : String) : String :=
  String.mk (((s.data.dropWhile jsWhitespaceChar).reverse.dropWhile
    jsWhitespaceChar).reverse)

/-- The final formatting of generateSummary: newlines become spaces, the
result is trimmed, and anything longer than 45 characters is cut to its
first 45 characters plus an ellipsis marker.  Lengths count code points
where JavaScript counts UTF-16 units; the two agree on all inputs without
supplementary-plane characters.  The character-list operations used here are
extensionally the String.replace / trim / slice calls of the source, spelled
out structurally. -/
def formatSummary (t : String) : String :=
  let t2 := jsTrim (collapseNewlines t)
  if t2.length > 45 then String.mk (t2.data.take 45) ++ "..." else t2

/-- generateSummary from the source: select a record with the loop, fall back
to the sentinel when none exists (the second disjunct of the source guard,
type !== user, is unreachable because the loop only stores non-meta user
records, and is kept here literally), then extract and format. -/
def generateSummary (msgs : List SessionMessage) : JsResult String :=
  match findFirstUserRun msgs none with
  | none => JsResult.ok ("No prompt")
  | some fm =>
    if fm.type ≠ MsgType.user then JsResult.ok ("No prompt")
    else JsResult.map formatSummary (extractSummaryText fm)

/-- The record the selection loop of generateSummary retains, written the way
the amended claim describes it: the last record of the first consecutive run
of non-meta user records. -/
def firstRunLast (msgs : List SessionMessage) : Option SessionMessage :=
  ((msgs.dropWhile (fun m => !isPlainUser m)).takeWhile isPlainUser).getLast?

/-- generateSummary as the amended claim words it: derive the text from the
record firstRunLast selects, with the same extraction and formatting. -/
def summarySpec (msgs : List SessionMessage) : JsResult String :=
  match firstRunLast msgs with
  | none => JsResult.ok ("No prompt")
  | some fm => JsResult.map formatSummary (extractSummaryText fm)

/-- Kind of a workspace snapshot entry (type WorkspaceSnapshotKind). -/
inductive SnapKind where
  | file
  | missing
  | other
deriving DecidableEq, Repr

/-- One entry of a per-session snapshot log (interface
WorkspaceSnapshotEntryV1; the constant version field is omitted). -/
structure SnapshotEntry where
  sessionId : String
  toolUseId : String
  toolName : String
  filePath : String
  timestamp : String
  kind : SnapKind
  content : Option String
deriving DecidableEq, Repr

/-- A node of the modelled workspace file system: a regular file with its
text content, or any other kind of file-system object (directory and the
like, for which stat().isFile() is false and unlink fails). -/
inductive FsNode where
  | file (content : String)
  | dir
deriving DecidableEq, Repr

/-- The workspace file system: an association list from path to node (absent
paths are absent files), plus a fault-injection set of paths on which writes
and deletions raise an I/O error.  The fault set models the permission and
I/O failures the source's per-file try/catch blocks are there to absorb; no
file-system operation of the source ever changes it. -/
structure Workspace where
  files : List (String × FsNode)
  failing : List String
deriving DecidableEq, Repr

/-- Look up the node at a path (first binding wins, as writes prepend after
erasing older bindings). -/
def Workspace.node (ws : Workspace) (p : String) : Option FsNode :=
  ws.files.lookup p

/-- fs.writeFile (preceded in the source by an ensureDir, which the flat path
model makes a no-op): replaces the binding of the path with a regular file.
Returns false (an exception in the source) on an injected fault. -/
def Workspace.writeFile (ws : Workspace) (p content : String) : Workspace × Bool :=
  if p ∈ ws.failing then (ws, false)
  else (⟨(p, FsNode.file content) :: ws.files.filter (fun kv => decide (kv.1 ≠ p)),
        ws.failing⟩, true)

/-- fs.unlink: removes a regular file; fails (an exception in the source) on
an injected fault, on a non-regular node, or on an absent path. -/
def Workspace.unlink (ws : Workspace) (p : String) : Workspace × Bool :=
  if p ∈ ws.failing then (ws, false)
  else
    match ws.files.lookup p with
    | some (FsNode.file _) =>
        (⟨ws.files.filter (fun kv => decide (kv.1 ≠ p)), ws.failing⟩, true)
    | some FsNode.dir => (ws, false)
    | none => (ws, false)

/-- recordWorkspaceSnapshotForTool: stat the path and capture kind file with
the full content for a regular file, kind other for any other object, and
kind missing when the path is absent or stat itself fails (the source catch
maps every stat failure to missing). -/
def recordWorkspaceSnapshotForTool (ws : Workspace)
    (sessionId toolUseId toolName filePath timestamp : String) : SnapshotEntry :=
  if filePath ∈ ws.failing then
    ⟨sessionId, toolUseId, toolName, filePath, timestamp, SnapKind.missing, none⟩
  else
    match ws.files.lookup filePath with
    | some (FsNode.file c) =>
        ⟨sessionId, toolUseId, toolName, filePath, timestamp, SnapKind.file, some c⟩
    | some FsNode.dir =>
        ⟨sessionId, toolUseId, toolName, filePath, timestamp, SnapKind.other, none⟩
    | none =>
        ⟨sessionId, toolUseId, toolName, filePath, timestamp, SnapKind.missing, none⟩

/-- The lookup map built by loadWorkspaceSnapshotsByToolUseId: entries with a
falsy toolUseId or a foreign sessionId are skipped, and Map.set folds
duplicate ids to last-write-wins, so a lookup returns the last matching
entry of the log. -/
def snapMapGet (snapLog : List SnapshotEntry) (sessionId id : String) : Option SnapshotEntry :=
  (snapLog.filter (fun e =>
    decide (e.toolUseId ≠ "") && decide (e.sessionId = sessionId) &&
    decide (e.toolUseId = id))).getLast?

/-- The per-snapshot application step inside the loop of
restoreWorkspaceFilesFromSnapshots.  The returned Bool is true when the
per-id try block completed: a missing-kind snapshot deletes the live file
with its own inner catch, so its failures are swallowed; a file-kind
snapshot rewrites the live file and reports a write failure; an other-kind
snapshot does nothing. -/
def applySnapshotStep (snap : SnapshotEntry) (ws : Workspace) : Workspace × Bool :=
  match snap.kind with
  | SnapKind.missing => ((ws.unlink snap.filePath).1, true)
  | SnapKind.file =>
      let r := ws.writeFile snap.filePath (snap.content.getD "")
      if r.2 then (r.1, true) else (ws, false)
  | SnapKind.other => (ws, true)

/-- Aggregate counters returned by restoreWorkspaceFilesFromSnapshots. -/
structure RestoreCounts where
  restored : Nat
  missing : Nat
  errors : Nat
deriving DecidableEq, Repr

/-- One iteration of the loop of restoreWorkspaceFilesFromSnapshots: look the
id up in the snapshot map, count a lookup miss as missing, count a failed
application as an error and anything else as restored. -/
def restoreStep (snapLog : List SnapshotEntry) (sessionId : String)
    (acc : Workspace × RestoreCounts) (id : String) : Workspace × RestoreCounts :=
  match snapMapGet snapLog sessionId id with
  | none => (acc.1, { acc.2 with missing := acc.2.missing + 1 })
  | some snap =>
    let r := applySnapshotStep snap acc.1
    if r.2 then (r.1, { acc.2 with restored := acc.2.restored + 1 })
    else (r.1, { acc.2 with errors := acc.2.errors + 1 })

/-- restoreWorkspaceFilesFromSnapshots: walk the ids in the given order; an
id without a snapshot in the map counts as missing, a failed application
counts as an error, anything else counts as restored; processing always
continues with the next id.  (The source's early return on an empty id list
produces the same zero counters as the empty fold.) -/
def restoreWorkspaceFilesFromSnapshots (snapLog : List SnapshotEntry)
    (sessionId : String) (ids : List String) (ws : Workspace) :
    Workspace × RestoreCounts :=
  ids.foldl (restoreStep snapLog sessionId) (ws, ⟨0, 0, 0⟩)

/-- An id that the snapshot map does not cover (counted as missing). -/
def snapMissB (snapLog : List SnapshotEntry) (sessionId id : String) : Bool :=
  (snapMapGet snapLog sessionId id).isNone

/-- An id whose snapshot application fails (counted as an error): its
snapshot has kind file and its path carries an injected write fault.  The
missing kind cannot fail (its inner catch swallows deletion errors) and the
other kind performs no I/O. -/
def snapErrB (snapLog : List SnapshotEntry) (sessionId : String)
    (failing : List String) (id : String) : Bool :=
  match snapMapGet snapLog sessionId id with
  | none => false
  | some s => decide (s.kind = SnapKind.file) && decide (s.filePath ∈ failing)

/-- The tool-use id of a content block if it denotes a workspace-mutating
tool call: the block must be truthy with type tool_use (falsy and nullish
blocks are skipped by the source's !block guard), its name one of Write,
Edit, MultiEdit, NotebookEdit, and its id a non-empty string. -/
def blockToolId : ContentItem → Option String
  | ContentItem.toolUse (some n) (some i) =>
      if (n = "Write" ∨ n = "Edit" ∨ n = "MultiEdit" ∨ n = "NotebookEdit") ∧ i ≠ ""
      then some i else none
  | _ => none

/-- Collect, in file order, the ids of mutating tool calls found in the
structured content of assistant records among the given records. -/
def mutatingToolIds (ms : List SessionMessage) : List String :=
  ms.foldl (fun acc m =>
    if m.type ≠ MsgType.assistant then acc
    else
      match m.message with
      | none => acc
      | some payload =>
        match payload.content with
        | MsgContent.arr blocks => acc ++ blocks.filterMap blockToolId
        | _ => acc) []

/-- The non-deterministic inputs of a rewind call: the session id derived
from the file name, the working directory, and the fresh uuid and timestamp
of the synthetic record (crypto.randomUUID() and new Date() in the source),
passed in as parameters to keep the embedding pure. -/
structure RewindEnv where
  sessionId : String
  cwd : String
  freshUuid : String
  freshTs : String
deriving DecidableEq, Repr

/-- The synthetic system/meta record restoreCheckpoint writes when the
truncation would otherwise leave an empty file. -/
def syntheticRecord (env : RewindEnv) : SessionMessage :=
  { uuid := env.freshUuid
    sessionId := env.sessionId
    parentUuid := none
    timestamp := env.freshTs
    type := MsgType.system
    message := none
    isMeta := true
    isSidechain := false
    leafUuid := none
    summary := none
    toolUseResult := none
    gitBranch := none
    cwd := some env.cwd }

/-- messages.findIndex(m => m.uuid === u): index of the first record with the
given uuid; List.findIdx returns the length when there is none, which the
embedding compares against where the source compares against -1. -/
def targetFilePos (msgs : List SessionMessage) (u : String) : Nat :=
  msgs.findIdx (fun m => decide (m.uuid = u))

/-- The cut-index computation of restoreCheckpoint: one before the target's
file position by default, or the parent's file position when the target's
parentUuid is truthy and resolves to a record of the file. -/
def computeCutIndex (msgs : List SessionMessage) (target : SessionMessage) : Int :=
  let tfi := targetFilePos msgs target.uuid
  match jsParent target with
  | none => (tfi : Int) - 1
  | some p =>
    let pi := targetFilePos msgs p
    if pi < msgs.length then (pi : Int) else (tfi : Int) - 1

/-- messages.slice(cutIndex + 1): the records strictly after the cut, whose
assistant tool calls are the ones to undo. -/
def removedAfter (msgs : List SessionMessage) (cut : Int) : List SessionMessage :=
  if cut + 1 < (msgs.length : Int) then msgs.drop (cut + 1).toNat else []

/-- The log content restoreCheckpoint persists: the records up to and
including the cut when that is non-negative, and the single synthetic record
when the truncation would leave nothing. -/
def truncatedLog (env : RewindEnv) (msgs : List SessionMessage) (cut : Int) :
    List SessionMessage :=
  let t := if 0 ≤ cut then msgs.take (cut.toNat + 1) else []
  if t = [] then [syntheticRecord env] else t

/-- Everything the try block of restoreCheckpoint produces when it runs to
completion: the rewritten log, the workspace after the snapshot phase,
whether restoreWorkspaceFilesFromSnapshots was called, whether the catalog
cache entry of the file was evicted, and the message list returned to the
caller. -/
structure CoreResult where
  log : List SessionMessage
  ws : Workspace
  snapshotInvoked : Bool
  cacheEvicted : Bool
  returned : List ConvMessage
deriving DecidableEq, Repr

/-- Outcome of the try block of restoreCheckpoint: an exception carrying its
message, or a completed result. -/
inductive CoreOut where
  | failed (msg : String)
  | done (r : CoreResult)
deriving DecidableEq, Repr

/-- The try block of restoreCheckpoint, translated step by step from the
source: early empty-file return (no write, no eviction), chain and visible
transcript construction, index validation, target resolution, cut
computation, best-effort workspace rewind (its own try/catch cannot fire in
this pure model), truncation with the non-empty invariant, persist, cache
eviction, and the restored visible prefix.  none stands for the divergence
of the walk on a cyclic log. -/
def restoreCheckpointCore (env : RewindEnv) (snapLog : List SnapshotEntry)
    (msgs : List SessionMessage) (ws : Workspace) (idx : Int) : Option CoreOut :=
  if msgs = [] then some (CoreOut.done ⟨msgs, ws, false, false, []⟩)
  else
    match buildChain msgs with
    | none => none
    | some chain =>
      let visible := chain.filter isVisibleRecord
      if idx < 0 ∨ (visible.length : Int) ≤ idx then
        some (CoreOut.failed ("Invalid messageIndex: " ++ toString idx ++
          " (visible=" ++ toString visible.length ++ ")"))
      else
        let target := visible.getD idx.toNat dfltMsg
        if targetFilePos msgs target.uuid = msgs.length then
          some (CoreOut.failed ("Target message not found in session file: " ++
            target.uuid))
        else
          let cut := computeCutIndex msgs target
          let ids := mutatingToolIds (removedAfter msgs cut)
          let wsr := if ids.isEmpty then ws
            else (restoreWorkspaceFilesFromSnapshots snapLog env.sessionId
              ids.reverse ws).1
          some (CoreOut.done
            ⟨truncatedLog env msgs cut, wsr, !ids.isEmpty, true,
             (visible.take (max 0 idx).toNat).filterMap convertMessage⟩)

/-- The observable outcome of a restoreCheckpoint call: final log content,
final workspace, whether the snapshot restore ran, whether the cache entry
was evicted, the list the promise resolves with, and the error message the
top-level catch absorbed, if any. -/
structure RewindOutcome where
  log : List SessionMessage
  ws : Workspace
  snapshotInvoked : Bool
  cacheEvicted : Bool
  returned : List ConvMessage
  caught : Option String
deriving DecidableEq, Repr

/-- restoreCheckpoint as the caller observes it: the try block's result, with
the top-level catch turning any exception into a logged message and an empty
returned list.  Both exceptions of the body are raised before any write,
snapshot application or cache eviction, so the caught branch leaves the
whole state untouched. -/
def restoreCheckpoint (env : RewindEnv) (snapLog : List SnapshotEntry)
    (msgs : List SessionMessage) (ws : Workspace) (idx : Int) :
    Option RewindOutcome :=
  match restoreCheckpointCore env snapLog msgs ws idx with
  | none => none
  | some (CoreOut.done r) =>
      some ⟨r.log, r.ws, r.snapshotInvoked, r.cacheEvicted, r.returned, none⟩
  | some (CoreOut.failed e) => some ⟨msgs, ws, false, false, [], some e⟩

/-- Catalog metadata of one session file (interface SessionInfo). -/
structure SessionInfo where
  id : String
  lastModified : Int
  messageCount : Nat
  summary : String
  isSidechain : Bool
  worktree : Option String
  isCurrentWorkspace : Bool
deriving DecidableEq, Repr

/-- _scanSessionInfo on an already-parsed log: ok none when the file has no
records or its base name fails uuid validation (validatedId carries the
validation outcome), otherwise the metadata with the generateSummary result,
overridden by the first summary record pointing at the last record's uuid
when its summary text is truthy.  A throwing generateSummary propagates
(listSessions then skips the file through its per-file catch). -/
def scanSessionInfoM (validatedId : Option String) (mtime : Int)
    (msgs : List SessionMessage) : JsResult (Option SessionInfo) :=
  if msgs = [] then JsResult.ok none
  else
    match validatedId with
    | none => JsResult.ok none
    | some sid =>
      match generateSummary msgs with
      | JsResult.thrown => JsResult.thrown
      | JsResult.ok base =>
        let lastMessage := msgs.getLast?.getD dfltMsg
        let firstMessage := msgs.headD dfltMsg
        let overridden :=
          match msgs.find? (fun m =>
              decide (m.type = MsgType.summary) &&
              decide (m.leafUuid = some lastMessage.uuid)) with
          | none => base
          | some m =>
            match m.summary with
            | none => base
            | some s => if s = "" then base else s
        JsResult.ok (some
          { id := sid
            lastModified := mtime
            messageCount := msgs.length
            summary := overridden
            isSidechain := firstMessage.isSidechain
            worktree := firstMessage.cwd
            isCurrentWorkspace := true })

/-- A log whose records form one linear parent chain in file order: pairwise
distinct non-empty uuids, a parentless first record, and each later record's
parentUuid pointing at the record immediately before it.  This is the shape
every single-writer append-only session produces and the linearity assumption
the source states for its leaf selection.  The chain condition is kept as an
executable Bool so that concrete instances evaluate. -/
def linearChainB : List SessionMessage → Bool
  | [] => true
  | [_] => true
  | a :: b :: rest =>
      decide (b.parentUuid = some a.uuid) && linearChainB (b :: rest)

def LinearLog (msgs : List SessionMessage) : Prop :=
  (msgs.map (fun m => m.uuid)).Nodup ∧
  (∀ m ∈ msgs, m.uuid ≠ "") ∧
  (msgs.headD dfltMsg).parentUuid = none ∧
  linearChainB msgs = true

instance (msgs : List SessionMessage) : Decidable (LinearLog msgs) :=
  inferInstanceAs (Decidable
    ((msgs.map (fun m : SessionMessage => m.uuid)).Nodup ∧
     (∀ m ∈ msgs, m.uuid ≠ "") ∧
     (msgs.headD dfltMsg).parentUuid = none ∧
     linearChainB msgs = true))

/-- The strong invariant linking consecutive chain elements: whenever the
right element's parent reference is truthy and resolves in the uuid index,
the left element is exactly the record the index returns. -/
def chainLink (msgs : List SessionMessage) (a b : SessionMessage) : Prop :=
  match jsParent b with
  | none => True
  | some p =>
    match lookupUuid msgs p with
    | none => True
    | some r => a = r

/-- Executable pairwise check over a reconstructed chain, as the claim words
it: each element's parent reference, when it resolves in the uuid index,
equals the uuid of the element immediately preceding it. -/
def chainLinkedB (msgs : List SessionMessage) : List SessionMessage → Bool
  | [] => true
  | [_] => true
  | a :: b :: rest =>
    (match jsParent b with
     | none => true
     | some p =>
       match lookupUuid msgs p with
       | none => true
       | some _ => decide (a.uuid = p)) && chainLinkedB msgs (b :: rest)

/-- Executable check that the walk had to stop at this record: its parent
reference is falsy or does not resolve in the uuid index. -/
def walkStopB (msgs : List SessionMessage) (m : SessionMessage) : Bool :=
  match jsParent m with
  | none => true
  | some p => (lookupUuid msgs p).isNone

/-- Concrete sample records used by witnesses and counterexamples.
wRecA, wRecB, wRecC realise the spec scenario: A(user), B(assistant,
parent = A), C(user, parent = B), in that file order. -/
def wRecA : SessionMessage :=
  { dfltMsg with
      uuid := "a"
      type := MsgType.user
      message := some ⟨MsgContent.str "hello A", none⟩ }

def wRecB : SessionMessage :=
  { dfltMsg with
      uuid := "b"
      type := MsgType.assistant
      parentUuid := some "a" }

def wRecC : SessionMessage :=
  { dfltMsg with
      uuid := "c"
      type := MsgType.user
      parentUuid := some "b"
      message := some ⟨MsgContent.str "hello C", none⟩ }

/-- A second parentless user record appended after wRecA: a well-formed log
whose records do not form a single chain. -/
def wRecR : SessionMessage :=
  { dfltMsg with
      uuid := "r"
      type := MsgType.user
      message := some ⟨MsgContent.str "hello R", none⟩ }

def wEnv : RewindEnv :=
  { sessionId := "sess-1"
    cwd := "/workdir"
    freshUuid := "fresh-uuid"
    freshTs := "2024-01-01T00:00:00Z" }

def wWs : Workspace := ⟨[], []⟩

/-- Sample records for the summary counterexample: two consecutive non-meta
user records followed by an assistant record, and a user record whose
structured content holds a null element. -/
def wU1 : SessionMessage :=
  { dfltMsg with
      uuid := "u1"
      type := MsgType.user
      message := some ⟨MsgContent.str "first prompt", none⟩ }

def wU2 : SessionMessage :=
  { dfltMsg with
      uuid := "u2"
      type := MsgType.user
      message := some ⟨MsgContent.str "second prompt", none⟩ }

def wAsst : SessionMessage :=
  { dfltMsg with
      uuid := "as1"
      type := MsgType.assistant }

def wNull : SessionMessage :=
  { dfltMsg with
      uuid := "un"
      type := MsgType.user
      message := some ⟨MsgContent.arr [ContentItem.nullish], none⟩ }

/-- Concrete snapshot entries and workspace used by the C8 witness. -/
def wSnapM : SnapshotEntry :=
  ⟨"sess-1", "t1", "Write", "/f", "ts", SnapKind.missing, none⟩

def wWsF : Workspace := ⟨[("/f", FsNode.file "data")], []⟩

/-- The executable chain check agrees with List.Chain' for the parent-link
relation. -/
theorem linearChainB_iff_chain (msgs : List SessionMessage) :
    linearChainB msgs = true ↔
      List.Chain' (fun a b => b.parentUuid = some a.uuid) msgs := by
  induction msgs with
  | nil => simp [linearChainB]
  | cons a rest ih =>
    cases rest with
    | nil => simp [linearChainB]
    | cons b rest2 =>
      rw [List.chain'_cons, ← ih]
      simp [linearChainB]

theorem lookupUuid_eq {msgs : List SessionMessage} {p : String}
    {a : SessionMessage} (h : lookupUuid msgs p = some a) :
    a ∈ msgs ∧ a.uuid = p := by
  unfold lookupUuid at h
  have hmem := List.mem_of_mem_getLast? h
  have h2 := List.mem_filter.mp hmem
  refine ⟨h2.1, ?_⟩
  have := h2.2
  simpa using this

theorem chainLinkedB_iff (msgs : List SessionMessage) (l : List SessionMessage) :
    chainLinkedB msgs l = true ↔
      List.Chain' (fun a b =>
        match jsParent b with
        | none => True
        | some p =>
          match lookupUuid msgs p with
          | none => True
          | some _ => a.uuid = p) l := by
  induction l with
  | nil => simp [chainLinkedB]
  | cons a rest ih =>
    cases rest with
    | nil => simp [chainLinkedB]
    | cons b rest2 =>
      rw [List.chain'_cons, ← ih]
      cases hjp : jsParent b with
      | none => simp [chainLinkedB, hjp]
      | some p =>
        cases hlk : lookupUuid msgs p with
        | none => simp [chainLinkedB, hjp, hlk]
        | some r => simp [chainLinkedB, hjp, hlk]

theorem chain_strong_to_linkedB (msgs : List SessionMessage)
    (l : List SessionMessage) (h : List.Chain' (chainLink msgs) l) :
    chainLinkedB msgs l = true := by
  rw [chainLinkedB_iff]
  refine List.Chain'.imp ?_ h
  intro a b hab
  unfold chainLink at hab
  cases hjp : jsParent b with
  | none => simp
  | some p =>
    cases hlk : lookupUuid msgs p with
    | none => simp [hjp, hlk]
    | some r =>
      simp [hjp, hlk] at hab ⊢
      subst hab
      exact (lookupUuid_eq hlk).2

/-- Soundness of the backward walk: a terminating walk ends (in root-to-leaf
order) at its start record, consecutive elements are linked through the uuid
index, the first element is one at which the walk had to stop, and every
element is the start record or comes from the index. -/
theorem chainWalk_sound (msgs : List SessionMessage) :
    ∀ (fuel : Nat) (cur : SessionMessage) (l : List SessionMessage),
      chainWalk msgs fuel cur = some l →
      l.getLast? = some cur ∧
      List.Chain' (chainLink msgs) l ∧
      (∀ hd ∈ l.head?, walkStopB msgs hd = true) ∧
      (∀ x ∈ l, x = cur ∨ x ∈ msgs) := by
  intro fuel
  induction fuel with
  | zero => intro cur l h; simp [chainWalk] at h
  | succ fuel ih =>
    intro cur l h
    rw [chainWalk] at h
    cases hjp : jsParent cur with
    | none =>
      rw [hjp] at h
      cases h
      refine ⟨rfl, List.chain'_singleton cur, ?_, ?_⟩
      · intro hd hh
        simp at hh
        subst hh
        simp [walkStopB, hjp]
      · intro x hx; simp at hx; subst hx; exact Or.inl rfl
    | some p =>
      simp only [hjp] at h
      cases hlk : lookupUuid msgs p with
      | none =>
        simp only [hlk] at h
        cases h
        refine ⟨rfl, List.chain'_singleton cur, ?_, ?_⟩
        · intro hd hh
          simp at hh
          subst hh
          simp [walkStopB, hjp, hlk]
        · intro x hx; simp at hx; subst hx; exact Or.inl rfl
      | some parent =>
        simp only [hlk] at h
        cases hw : chainWalk msgs fuel parent with
        | none =>
          simp only [hw] at h
          cases h
        | some rest =>
          simp only [hw] at h
          cases h
          obtain ⟨hlast, hchain, hhead, hmem⟩ := ih parent rest hw
          have hne : rest ≠ [] := by
            intro hco; subst hco; simp at hlast
          refine ⟨List.getLast?_concat rest, ?_, ?_, ?_⟩
          · rw [List.chain'_append]
            refine ⟨hchain, List.chain'_singleton cur, ?_⟩
            intro x hx y hy
            simp at hy
            subst hy
            rw [hlast] at hx
            simp at hx
            subst hx
            simp [chainLink, hjp, hlk]
          · intro hd hh
            rw [List.head?_append] at hh
            cases hh2 : rest.head? with
            | none => exact absurd hh2 (by simpa using hne)
            | some r0 =>
              rw [hh2] at hh
              simp at hh
              subst hh
              exact hhead r0 (by simp [hh2])
          · intro x hx
            rw [List.mem_append] at hx
            cases hx with
            | inl hx =>
              cases hmem x hx with
              | inl he => subst he; exact Or.inr (lookupUuid_eq hlk).1
              | inr hm => exact Or.inr hm
            | inr hx =>
              simp at hx
              subst hx
              exact Or.inl rfl

theorem buildChain_subset (msgs chain : List SessionMessage)
    (h : buildChain msgs = some chain) : ∀ x ∈ chain, x ∈ msgs := by
  unfold buildChain at h
  cases hg : msgs.getLast? with
  | none =>
    rw [hg] at h
    cases h
    intro x hx
    cases hx
  | some leaf =>
    rw [hg] at h
    have hs := (chainWalk_sound msgs (msgs.length + 1) leaf chain h).2.2.2
    intro x hx
    cases hs x hx with
    | inl he => subst he; exact List.mem_of_mem_getLast? hg
    | inr hm => exact hm

theorem filterMap_eq_filterMap_filter {α β : Type} (f : α → Option β)
    (l : List α) :
    l.filterMap f = (l.filter (fun a => (f a).isSome)).filterMap f := by
  induction l with
  | nil => rfl
  | cons x xs ih =>
    cases hf : f x with
    | none => simp [List.filterMap_cons, List.filter_cons, hf, ih]
    | some b => simp [List.filterMap_cons, List.filter_cons, hf, ih]

theorem filter_index_decomp {α : Type} (q : α → Bool) :
    ∀ (l : List α) (k : Nat) (hk : k < (l.filter q).length),
      ∃ i, ∃ hi : i < l.length,
        q (l.get ⟨i, hi⟩) = true ∧
        (l.filter q).get ⟨k, hk⟩ = l.get ⟨i, hi⟩ ∧
        (l.take i).filter q = (l.filter q).take k := by
  intro l
  induction l with
  | nil => intro k hk; simp at hk
  | cons x xs ih =>
    intro k hk
    cases hq : q x with
    | true =>
      cases k with
      | zero =>
        refine ⟨0, by simp, hq, ?_, by simp⟩
        have hfe : (x :: xs).filter q = x :: xs.filter q := by
          simp [List.filter_cons, hq]
        simp [hfe]
      | succ k =>
        have hfe : (x :: xs).filter q = x :: xs.filter q := by
          simp [List.filter_cons, hq]
        have hk' : k < (xs.filter q).length := by
          rw [hfe] at hk
          simpa using hk
        obtain ⟨i, hi, hqi, hget, htake⟩ := ih k hk'
        refine ⟨i + 1, by simpa using Nat.succ_lt_succ hi, hqi, ?_, ?_⟩
        · have h1 : ((x :: xs).filter q).get ⟨k + 1, hk⟩ =
              (xs.filter q).get ⟨k, hk'⟩ := by
            simp [hfe]
          rw [h1, hget]
          rfl
        · show ((x :: xs.take i).filter q) = ((x :: xs).filter q).take (k + 1)
          rw [hfe]
          simp [List.filter_cons, hq, htake]
    | false =>
      have hfe : (x :: xs).filter q = xs.filter q := by
        simp [List.filter_cons, hq]
      have hk' : k < (xs.filter q).length := by rw [hfe] at hk; exact hk
      obtain ⟨i, hi, hqi, hget, htake⟩ := ih k hk'
      refine ⟨i + 1, by simpa using Nat.succ_lt_succ hi, hqi, ?_, ?_⟩
      · have h1 : ((x :: xs).filter q).get ⟨k, hk⟩ =
            (xs.filter q).get ⟨k, hk'⟩ := by
          simp [hfe]
        rw [h1, hget]
        rfl
      · show ((x :: xs.take i).filter q) = ((x :: xs).filter q).take k
        rw [hfe]
        simp [List.filter_cons, hq, htake]

theorem filter_uuid_eq_singleton {msgs : List SessionMessage}
    (hnd : (msgs.map (fun m => m.uuid)).Nodup) {a : SessionMessage}
    (ha : a ∈ msgs) :
    msgs.filter (fun m => decide (m.uuid = a.uuid)) = [a] := by
  induction msgs with
  | nil => cases ha
  | cons x xs ih =>
    simp only [List.map_cons, List.nodup_cons] at hnd
    cases List.mem_cons.mp ha with
    | inl he =>
      subst he
      have hnil : xs.filter (fun m => decide (m.uuid = a.uuid)) = [] := by
        refine List.filter_eq_nil_iff.mpr ?_
        intro m hm
        simp only [decide_eq_true_eq]
        intro hco
        exact hnd.1 (hco ▸ List.mem_map_of_mem (fun m => m.uuid) hm)
      simp [List.filter_cons, hnil]
    | inr hm =>
      have hne : ¬ (x.uuid = a.uuid) := by
        intro hco
        exact hnd.1 (hco ▸ List.mem_map_of_mem (fun m => m.uuid) hm)
      simp [List.filter_cons, hne, ih hnd.2 hm]

theorem lookupUuid_self {msgs : List SessionMessage}
    (hnd : (msgs.map (fun m => m.uuid)).Nodup) {a : SessionMessage}
    (ha : a ∈ msgs) : lookupUuid msgs a.uuid = some a := by
  unfold lookupUuid
  rw [filter_uuid_eq_singleton hnd ha]
  rfl

theorem findIdx_uuid_nodup {msgs : List SessionMessage}
    (hnd : (msgs.map (fun m => m.uuid)).Nodup) :
    ∀ (j : Nat) (hj : j < msgs.length),
      msgs.findIdx (fun m => decide (m.uuid = (msgs.get ⟨j, hj⟩).uuid)) = j := by
  induction msgs with
  | nil => intro j hj; simp at hj
  | cons x xs ih =>
    simp only [List.map_cons, List.nodup_cons] at hnd
    intro j hj
    cases j with
    | zero =>
      rw [List.findIdx_cons]
      simp
    | succ j =>
      have hj' : j < xs.length := by simpa using hj
      have hget : (x :: xs).get ⟨j + 1, hj⟩ = xs.get ⟨j, hj'⟩ := rfl
      rw [hget, List.findIdx_cons]
      have hne : decide (x.uuid = (xs.get ⟨j, hj'⟩).uuid) = false := by
        simp only [decide_eq_false_iff_not]
        intro hco
        exact hnd.1 (hco ▸ List.mem_map_of_mem (fun m => m.uuid)
          (List.get_mem xs j hj'))
      rw [hne]
      show (List.findIdx (fun m => decide (m.uuid = (xs.get ⟨j, hj'⟩).uuid)) xs) + 1 = j + 1
      rw [ih hnd.2 j hj']

theorem linear_chainWalk {msgs : List SessionMessage} (hlin : LinearLog msgs) :
    ∀ (j : Nat) (hj : j < msgs.length) (fuel : Nat), j < fuel →
      chainWalk msgs fuel (msgs.get ⟨j, hj⟩) = some (msgs.take (j + 1)) := by
  obtain ⟨hnd, hneu, hhd, hch⟩ := hlin
  have hch' := (linearChainB_iff_chain msgs).mp hch
  rw [List.chain'_iff_get] at hch'
  intro j
  induction j with
  | zero =>
    intro hj fuel hf
    cases fuel with
    | zero => omega
    | succ fuel =>
      have h0 : (msgs.get ⟨0, hj⟩).parentUuid = none := by
        cases msgs with
        | nil => simp at hj
        | cons x xs => simpa using hhd
      have hjp : jsParent (msgs.get ⟨0, hj⟩) = none := by
        unfold jsParent
        rw [h0]
      rw [chainWalk, hjp]
      cases msgs with
      | nil => simp at hj
      | cons x xs => simp
  | succ j ihj =>
    intro hj fuel hf
    cases fuel with
    | zero => omega
    | succ fuel =>
      have hj' : j < msgs.length := by omega
      have hpar : (msgs.get ⟨j + 1, hj⟩).parentUuid =
          some ((msgs.get ⟨j, hj'⟩).uuid) := by
        have := hch' j (by omega)
        exact this
      have huuid : (msgs.get ⟨j, hj'⟩).uuid ≠ "" :=
        hneu _ (List.get_mem msgs j hj')
      have hjp : jsParent (msgs.get ⟨j + 1, hj⟩) =
          some ((msgs.get ⟨j, hj'⟩).uuid) := by
        unfold jsParent
        rw [hpar]
        exact if_neg huuid
      have hlk : lookupUuid msgs ((msgs.get ⟨j, hj'⟩).uuid) =
          some (msgs.get ⟨j, hj'⟩) :=
        lookupUuid_self hnd (List.get_mem msgs j hj')
      rw [chainWalk, hjp]
      simp only [hlk, ihj hj' fuel (by omega)]
      congr 1
      have ht : List.take (j + 1 + 1) msgs =
          List.take (j + 1) msgs ++ msgs[j + 1]?.toList := List.take_succ
      rw [ht, List.getElem?_eq_getElem hj]
      rfl

theorem buildChain_linear {msgs : List SessionMessage} (hlin : LinearLog msgs)
    (hne : msgs ≠ []) : buildChain msgs = some msgs := by
  unfold buildChain
  have hlen : 0 < msgs.length := List.length_pos.mpr hne
  have hj : msgs.length - 1 < msgs.length := by omega
  have hg : msgs.getLast? = some (msgs.get ⟨msgs.length - 1, hj⟩) := by
    rw [List.getLast?_eq_getElem?, List.getElem?_eq_getElem hj]
    rfl
  simp only [hg]
  rw [linear_chainWalk hlin (msgs.length - 1) hj (msgs.length + 1) (by omega)]
  congr 1
  have : msgs.length - 1 + 1 = msgs.length := by omega
  rw [this, List.take_length]

theorem linearLog_take {msgs : List SessionMessage} (hlin : LinearLog msgs)
    (n : Nat) : LinearLog (msgs.take n) := by
  obtain ⟨hnd, hneu, hhd, hch⟩ := hlin
  refine ⟨?_, ?_, ?_, ?_⟩
  · rw [List.map_take]
    exact List.Nodup.sublist
      (List.take_sublist n (List.map (fun m => m.uuid) msgs)) hnd
  · intro m hm
    exact hneu m (List.mem_of_mem_take hm)
  · cases msgs with
    | nil => simp [dfltMsg]
    | cons x xs =>
      cases n with
      | zero => simp [dfltMsg]
      | succ n => simpa using hhd
  · rw [linearChainB_iff_chain] at hch ⊢
    exact hch.take n

theorem truncatedLog_eq (env : RewindEnv) (msgs : List SessionMessage)
    (cut : Int) (hne : msgs ≠ []) :
    truncatedLog env msgs cut =
      if 0 ≤ cut then msgs.take (cut.toNat + 1) else [syntheticRecord env] := by
  unfold truncatedLog
  by_cases hc : 0 ≤ cut
  · rw [if_pos hc, if_pos hc]
    have htk : msgs.take (cut.toNat + 1) ≠ [] := by
      cases msgs with
      | nil => exact absurd rfl hne
      | cons x xs => simp [List.take_succ_cons]
    rw [if_neg htk]
  · rw [if_neg hc, if_neg hc]
    simp

theorem truncatedLog_ne_nil (env : RewindEnv) (msgs : List SessionMessage)
    (cut : Int) : truncatedLog env msgs cut ≠ [] := by
  unfold truncatedLog
  by_cases ht : (if 0 ≤ cut then msgs.take (cut.toNat + 1) else []) = []
  · rw [if_pos ht]
    simp
  · rw [if_neg ht]
    exact ht

/-- Evaluation of restoreCheckpoint on a nonempty log and an invalid index:
the body raises before any effect and the top-level catch returns an empty
list, leaving log, workspace and cache untouched. -/
theorem restoreCheckpoint_invalid_eval (env : RewindEnv)
    (snapLog : List SnapshotEntry) (msgs : List SessionMessage) (ws : Workspace)
    (idx : Int) (chain : List SessionMessage)
    (hne : msgs ≠ [])
    (hch : buildChain msgs = some chain)
    (hidx : idx < 0 ∨ ((chain.filter isVisibleRecord).length : Int) ≤ idx) :
    restoreCheckpoint env snapLog msgs ws idx =
      some ⟨msgs, ws, false, false, [],
        some ("Invalid messageIndex: " ++ toString idx ++ " (visible=" ++
          toString (chain.filter isVisibleRecord).length ++ ")")⟩ := by
  unfold restoreCheckpoint restoreCheckpointCore
  rw [if_neg hne]
  simp only [hch]
  rw [if_pos hidx]

/-- Evaluation of restoreCheckpoint on a nonempty log and a valid index: the
body runs to completion with the cut, snapshot phase, truncation, eviction
and restored prefix spelled out. -/
theorem restoreCheckpoint_ok_eval (env : RewindEnv)
    (snapLog : List SnapshotEntry) (msgs : List SessionMessage) (ws : Workspace)
    (idx : Int) (chain : List SessionMessage)
    (hne : msgs ≠ [])
    (hch : buildChain msgs = some chain)
    (h0 : 0 ≤ idx)
    (hlt : idx < ((chain.filter isVisibleRecord).length : Int)) :
    restoreCheckpoint env snapLog msgs ws idx =
      (let visible := chain.filter isVisibleRecord
       let target := visible.getD idx.toNat dfltMsg
       let cut := computeCutIndex msgs target
       let ids := mutatingToolIds (removedAfter msgs cut)
       some ⟨truncatedLog env msgs cut,
         (if ids.isEmpty then ws
          else (restoreWorkspaceFilesFromSnapshots snapLog env.sessionId
            ids.reverse ws).1),
         !ids.isEmpty, true,
         (visible.take idx.toNat).filterMap convertMessage, none⟩) := by
  have htl : idx.toNat < (chain.filter isVisibleRecord).length := by omega
  have hmem : (chain.filter isVisibleRecord).getD idx.toNat dfltMsg ∈ msgs := by
    rw [List.getD_eq_get _ _ htl]
    exact buildChain_subset msgs chain hch _
      (List.mem_of_mem_filter (List.get_mem _ idx.toNat htl))
  have hfound : targetFilePos msgs
      ((chain.filter isVisibleRecord).getD idx.toNat dfltMsg).uuid < msgs.length := by
    unfold targetFilePos
    exact List.findIdx_lt_length_of_exists ⟨_, hmem, by simp⟩
  have hnidx : ¬ (idx < 0 ∨ ((chain.filter isVisibleRecord).length : Int) ≤ idx) := by
    omega
  have hmax : (max 0 idx).toNat = idx.toNat := by omega
  unfold restoreCheckpoint restoreCheckpointCore
  rw [if_neg hne]
  simp only [hch]
  rw [if_neg hnidx, if_neg (Nat.ne_of_lt hfound)]
  simp only [hmax]

/-- C6: for every record sequence on which the walk terminates, the
reconstructed chain is empty exactly when the sequence is empty; otherwise
its last element is the last record in file order, each element's parent
reference, when it resolves in the uuid index, equals the uuid of the
element immediately preceding it, and the walk stopped at the first element
because its parent reference is falsy or unresolvable. -/
theorem buildChain_shape (msgs chain : List SessionMessage)
    (h : buildChain msgs = some chain) :
    (msgs = [] → chain = []) ∧
    (msgs ≠ [] →
      chain.getLast? = msgs.getLast? ∧
      chainLinkedB msgs chain = true ∧
      ∀ hd ∈ chain.head?, walkStopB msgs hd = true) := by
  constructor
  · intro he
    subst he
    unfold buildChain at h
    simp at h
    exact h
  · intro hne
    unfold buildChain at h
    cases hg : msgs.getLast? with
    | none =>
      rw [List.getLast?_eq_none_iff] at hg
      exact absurd hg hne
    | some leaf =>
      rw [hg] at h
      obtain ⟨hlast, hchain, hhead, _⟩ :=
        chainWalk_sound msgs (msgs.length + 1) leaf chain h
      exact ⟨hlast, chain_strong_to_linkedB msgs chain hchain, hhead⟩

/-- Witness for C6 at the concrete two-record log [wRecA, wRecB]. -/
theorem buildChain_shape_witness :
    chainLinkedB [wRecA, wRecB] [wRecA, wRecB] = true ∧
    walkStopB [wRecA, wRecB] wRecA = true := by
  have h := buildChain_shape [wRecA, wRecB] [wRecA, wRecB] (by decide)
  have h2 := h.2 (by decide)
  refine ⟨h2.2.1, h2.2.2 wRecA ?_⟩
  rfl

/-- C1(amended): on a nonempty log, an out-of-range messageIndex makes the
body raise an invalid-index error naming both the requested index and the
visible length, but the top-level catch of restoreCheckpoint absorbs it and
the caller receives an ordinary empty list; nothing is written, restored or
evicted. -/
theorem restoreCheckpoint_invalid_index_caught (env : RewindEnv)
    (snapLog : List SnapshotEntry) (msgs : List SessionMessage) (ws : Workspace)
    (idx : Int) (chain : List SessionMessage)
    (hne : msgs ≠ [])
    (hch : buildChain msgs = some chain)
    (hidx : idx < 0 ∨ ((chain.filter isVisibleRecord).length : Int) ≤ idx) :
    restoreCheckpoint env snapLog msgs ws idx =
      some ⟨msgs, ws, false, false, [],
        some ("Invalid messageIndex: " ++ toString idx ++ " (visible=" ++
          toString (chain.filter isVisibleRecord).length ++ ")")⟩ :=
  restoreCheckpoint_invalid_eval env snapLog msgs ws idx chain hne hch hidx

/-- Witness for C1(amended) at the concrete log [wRecA, wRecB] and index 7. -/
theorem restoreCheckpoint_invalid_index_caught_witness :
    restoreCheckpoint wEnv [] [wRecA, wRecB] wWs 7 =
      some ⟨[wRecA, wRecB], wWs, false, false, [],
        some ("Invalid messageIndex: 7 (visible=2)")⟩ := by
  have h := restoreCheckpoint_invalid_index_caught wEnv [] [wRecA, wRecB] wWs 7
    [wRecA, wRecB] (by decide) (by decide) (by decide)
  rw [h]
  rfl

/-- C1(counterexample): the claim says the invalid-index error propagates to
the caller rather than an ordinary empty result being returned; on the
one-record log with index 5 the call resolves normally with an empty message
list (the same caller-visible result as a benign empty rewind), the error
being only logged internally. -/
theorem restoreCheckpoint_invalid_index_swallowed :
    restoreCheckpoint wEnv [] [wRecA] wWs 5 =
      some ⟨[wRecA], wWs, false, false, [],
        some ("Invalid messageIndex: 5 (visible=1)")⟩ ∧
    (restoreCheckpoint wEnv [] [wRecA] wWs 5).map (fun o => o.returned) =
      some [] := by
  exact ⟨by decide, by decide⟩

/-- C2(counterexample): in the spec scenario [A, B, C], messageIndex 1
targets B (the visible transcript is [A, B, C]), B's parent A is at file
position 0, and the log is rewritten to [A] - not to [A, B] as the claim
states. -/
theorem restoreCheckpoint_scenario_idx1 :
    (restoreCheckpoint wEnv [] [wRecA, wRecB, wRecC] wWs 1).map (fun o => o.log) =
      some [wRecA] ∧
    some [wRecA] ≠ some [wRecA, wRecB] := by
  exact ⟨by decide, by decide⟩

/-- C2(amended): in the scenario [A, B, C] the record C projects to visible
index 2, and rewinding with messageIndex 2 truncates the log to [A, B]
(C's parent is B); messageIndex 1 targets B and truncates to [A]. -/
theorem restoreCheckpoint_scenario_idx2 :
    (restoreCheckpoint wEnv [] [wRecA, wRecB, wRecC] wWs 2).map (fun o => o.log) =
      some [wRecA, wRecB] := by
  decide

/-- C3(counterexample): rewinding the single-record log [wRecA] to index 0 is
a valid rewind whose cut index is -1 (the target is the first record and has
no parent), so the records up to and including the cut form the empty list;
the file is nevertheless rewritten to the one synthetic record, so the
as-stated claim fails. -/
theorem restoreCheckpoint_cut_synthetic_counterexample :
    (restoreCheckpoint wEnv [] [wRecA] wWs 0).map (fun o => o.log) =
      some [syntheticRecord wEnv] ∧
    some [syntheticRecord wEnv] ≠ some ([] : List SessionMessage) := by
  exact ⟨by decide, by decide⟩

/-- C3(amended): for every valid rewind the cut index is the target's file
position minus one, or the parent's file position when the target's truthy
parentUuid resolves to a record of the file; the log is rewritten to the
records up to and including the cut when that is non-negative, and to the
single synthetic meta record when the cut is negative (no records would
remain). -/
theorem restoreCheckpoint_cut_boundary (env : RewindEnv)
    (snapLog : List SnapshotEntry) (msgs : List SessionMessage) (ws : Workspace)
    (idx : Int) (chain : List SessionMessage)
    (hne : msgs ≠ [])
    (hch : buildChain msgs = some chain)
    (h0 : 0 ≤ idx)
    (hlt : idx < ((chain.filter isVisibleRecord).length : Int)) :
    ∃ out, restoreCheckpoint env snapLog msgs ws idx = some out ∧
      (let target := (chain.filter isVisibleRecord).getD idx.toNat dfltMsg
       let tfi : Int := targetFilePos msgs target.uuid
       let cut : Int :=
         match jsParent target with
         | none => tfi - 1
         | some p =>
           if targetFilePos msgs p < msgs.length then (targetFilePos msgs p : Int)
           else tfi - 1
       out.log = if 0 ≤ cut then msgs.take (cut.toNat + 1)
         else [syntheticRecord env]) := by
  refine ⟨_, restoreCheckpoint_ok_eval env snapLog msgs ws idx chain hne hch h0 hlt, ?_⟩
  show truncatedLog env msgs
    (computeCutIndex msgs ((chain.filter isVisibleRecord).getD idx.toNat dfltMsg)) = _
  rw [truncatedLog_eq env msgs _ hne]
  rfl

/-- Witness for C3(amended): rewinding [A, B, C] at visible index 2 cuts at
the parent B (file position 1) and keeps [A, B]. -/
theorem restoreCheckpoint_cut_boundary_witness :
    (restoreCheckpoint wEnv [] [wRecA, wRecB, wRecC] wWs 2).map (fun o => o.log) =
      some [wRecA, wRecB] := by
  obtain ⟨out, h1, h2⟩ := restoreCheckpoint_cut_boundary wEnv []
    [wRecA, wRecB, wRecC] wWs 2 [wRecA, wRecB, wRecC]
    (by decide) (by decide) (by decide) (by decide)
  rw [h1]
  show some out.log = some [wRecA, wRecB]
  rw [h2]
  decide

/-- C10: when the index is out of range (and, likewise, whenever the body of
restoreCheckpoint raises at all, which covers the unlocatable-target error),
no state changes: the log keeps its records, the workspace is untouched, the
snapshot restore is never invoked and the catalog cache entry is not
evicted; the caller receives an empty list. -/
theorem restoreCheckpoint_invalid_no_state_change (env : RewindEnv)
    (snapLog : List SnapshotEntry) (msgs : List SessionMessage) (ws : Workspace)
    (idx : Int) (chain : List SessionMessage)
    (hch : buildChain msgs = some chain) :
    ((idx < 0 ∨ ((chain.filter isVisibleRecord).length : Int) ≤ idx) →
      ∃ out, restoreCheckpoint env snapLog msgs ws idx = some out ∧
        out.log = msgs ∧ out.ws = ws ∧ out.snapshotInvoked = false ∧
        out.cacheEvicted = false ∧ out.returned = []) ∧
    (∀ e, restoreCheckpointCore env snapLog msgs ws idx = some (CoreOut.failed e) →
      restoreCheckpoint env snapLog msgs ws idx =
        some ⟨msgs, ws, false, false, [], some e⟩) := by
  constructor
  · intro hidx
    by_cases hne : msgs = []
    · subst hne
      exact ⟨⟨[], ws, false, false, [], none⟩, rfl, rfl, rfl, rfl, rfl, rfl⟩
    · exact ⟨_, restoreCheckpoint_invalid_eval env snapLog msgs ws idx chain hne
        hch hidx, rfl, rfl, rfl, rfl, rfl⟩
  · intro e he
    unfold restoreCheckpoint
    rw [he]

/-- Witness for C10 at the concrete log [wRecA] and the negative index -3. -/
theorem restoreCheckpoint_invalid_no_state_change_witness :
    (restoreCheckpoint wEnv [] [wRecA] wWs (-3)).map (fun o => o.log) =
      some [wRecA] ∧
    (restoreCheckpoint wEnv [] [wRecA] wWs (-3)).map (fun o => o.cacheEvicted) =
      some false := by
  obtain ⟨out, h1, h2, h3, h4, h5, h6⟩ :=
    (restoreCheckpoint_invalid_no_state_change wEnv [] [wRecA] wWs (-3) [wRecA]
      (by decide)).1 (by decide)
  rw [h1]
  constructor
  · show some out.log = some [wRecA]
    rw [h2]
  · show some out.cacheEvicted = some false
    rw [h5]

/-- C5: a valid rewind never leaves a zero-record log; when the truncation
would leave nothing (negative cut) the log is exactly the one synthetic
system record flagged as meta carrying the session id, the working directory
and the fresh timestamp, and a log consisting of that record still yields a
catalog entry from the session scan (with the sentinel summary), so the
session remains listed. -/
theorem restoreCheckpoint_nonempty_log (env : RewindEnv)
    (snapLog : List SnapshotEntry) (msgs : List SessionMessage) (ws : Workspace)
    (idx : Int) (chain : List SessionMessage)
    (hne : msgs ≠ [])
    (hch : buildChain msgs = some chain)
    (h0 : 0 ≤ idx)
    (hlt : idx < ((chain.filter isVisibleRecord).length : Int)) :
    ∃ out, restoreCheckpoint env snapLog msgs ws idx = some out ∧
      out.log ≠ [] ∧
      (computeCutIndex msgs
          ((chain.filter isVisibleRecord).getD idx.toNat dfltMsg) < 0 →
        out.log = [{ uuid := env.freshUuid
                     sessionId := env.sessionId
                     parentUuid := none
                     timestamp := env.freshTs
                     type := MsgType.system
                     message := none
                     isMeta := true
                     isSidechain := false
                     leafUuid := none
                     summary := none
                     toolUseResult := none
                     gitBranch := none
                     cwd := some env.cwd }]) ∧
      (∀ sid mtime, scanSessionInfoM (some sid) mtime [syntheticRecord env] =
        JsResult.ok (some { id := sid
                            lastModified := mtime
                            messageCount := 1
                            summary := "No prompt"
                            isSidechain := false
                            worktree := some env.cwd
                            isCurrentWorkspace := true })) := by
  refine ⟨_, restoreCheckpoint_ok_eval env snapLog msgs ws idx chain hne hch h0 hlt,
    ?_, ?_, ?_⟩
  · exact truncatedLog_ne_nil env msgs _
  · intro hcut
    show truncatedLog env msgs _ = _
    rw [truncatedLog_eq env msgs _ hne, if_neg (by omega)]
    rfl
  · intro sid mtime
    rfl

/-- Witness for C5: the single-record session rewound to index 0 does not
leave an empty log. -/
theorem restoreCheckpoint_nonempty_log_witness :
    (restoreCheckpoint wEnv [] [wRecA] wWs 0).map (fun o => o.log) ≠
      some [] := by
  obtain ⟨out, h1, h2, _, _⟩ := restoreCheckpoint_nonempty_log wEnv [] [wRecA]
    wWs 0 [wRecA] (by decide) (by decide) (by decide) (by decide)
  rw [h1]
  show some out.log ≠ some []
  intro hco
  exact h2 (Option.some.inj hco)

theorem getLast?_cons_eq {α : Type} (x : α) (l : List α) :
    (x :: l).getLast? = some (l.getLast?.getD x) := by
  cases h : l.getLast? with
  | none =>
    rw [List.getLast?_eq_none_iff] at h
    subst h
    rfl
  | some z =>
    cases l with
    | nil => simp at h
    | cons y ys =>
      rw [List.getLast?_cons_cons, h]
      rfl

theorem ffur_cons_pos (x : SessionMessage) (xs : List SessionMessage)
    (acc : Option SessionMessage) (hx : isPlainUser x = true) :
    findFirstUserRun (x :: xs) acc = findFirstUserRun xs (some x) := by
  simp only [findFirstUserRun, hx]
  simp

theorem ffur_cons_neg (x : SessionMessage) (xs : List SessionMessage)
    (acc : Option SessionMessage) (hx : isPlainUser x = false) :
    findFirstUserRun (x :: xs) acc =
      (match acc with
       | some fm => some fm
       | none => findFirstUserRun xs none) := by
  simp only [findFirstUserRun, hx]
  simp

theorem ffur_acc (l : List SessionMessage) :
    ∀ m0 : SessionMessage, findFirstUserRun l (some m0) =
      some ((l.takeWhile isPlainUser).getLast?.getD m0) := by
  induction l with
  | nil => intro m0; rfl
  | cons x xs ih =>
    intro m0
    cases hx : isPlainUser x with
    | true =>
      rw [ffur_cons_pos x xs (some m0) hx, ih x,
        List.takeWhile_cons_of_pos hx, getLast?_cons_eq]
      rfl
    | false =>
      rw [ffur_cons_neg x xs (some m0) hx,
        List.takeWhile_cons_of_neg (by simp [hx])]
      rfl

theorem ffur_eq_firstRunLast (msgs : List SessionMessage) :
    findFirstUserRun msgs none = firstRunLast msgs := by
  induction msgs with
  | nil => rfl
  | cons x xs ih =>
    cases hx : isPlainUser x with
    | true =>
      rw [ffur_cons_pos x xs none hx, ffur_acc xs x]
      unfold firstRunLast
      rw [List.dropWhile_cons_of_neg (by simp [hx]),
        List.takeWhile_cons_of_pos hx, getLast?_cons_eq]
    | false =>
      rw [ffur_cons_neg x xs none hx, ih]
      unfold firstRunLast
      rw [List.dropWhile_cons_of_pos (by simp [hx])]

theorem ffur_isPlainUser :
    ∀ (l : List SessionMessage) (acc : Option SessionMessage),
      (∀ a, acc = some a → isPlainUser a = true) →
      ∀ fm, findFirstUserRun l acc = some fm → isPlainUser fm = true := by
  intro l
  induction l with
  | nil =>
    intro acc hacc fm h
    exact hacc fm h
  | cons x xs ih =>
    intro acc hacc fm h
    cases hx : isPlainUser x with
    | true =>
      rw [ffur_cons_pos x xs acc hx] at h
      refine ih (some x) ?_ fm h
      intro a ha
      cases ha
      exact hx
    | false =>
      rw [ffur_cons_neg x xs acc hx] at h
      cases acc with
      | some a0 =>
        have he : a0 = fm := by
          simpa using h
        exact he ▸ hacc a0 rfl
      | none =>
        exact ih none (fun a ha => by cases ha) fm h

theorem string_length_take (s : String) (n : Nat) :
    (s.take n).length = min n s.length := by
  rw [String.take_eq]
  show (s.1.take n).length = min n s.length
  rw [List.length_take]
  rfl

/-- C7(amended): generateSummary derives the summary from the record
summarySpec selects - the last record of the first consecutive run of
non-meta user records - with the extraction and throw behaviour of
extractSummaryText; and formatSummary truncates any trimmed text longer
than 45 characters to exactly its first 45 characters plus a three-character
ellipsis marker, so every returned summary is at most 48 characters long. -/
theorem generateSummary_follows_selection (msgs : List SessionMessage) :
    generateSummary msgs = summarySpec msgs ∧
    (∀ t : String,
      ((jsTrim (collapseNewlines t)).length > 45 →
        formatSummary t =
          String.mk ((jsTrim (collapseNewlines t)).data.take 45) ++ "..." ∧
        (String.mk ((jsTrim (collapseNewlines t)).data.take 45)).length = 45) ∧
      (formatSummary t).length ≤ 48) := by
  constructor
  · unfold generateSummary summarySpec
    rw [ffur_eq_firstRunLast]
    cases hf : firstRunLast msgs with
    | none => rfl
    | some fm =>
      have hpl : isPlainUser fm = true := by
        apply ffur_isPlainUser msgs none (fun a ha => by cases ha) fm
        rw [ffur_eq_firstRunLast]
        exact hf
      have htype : fm.type = MsgType.user := by
        unfold isPlainUser at hpl
        simp at hpl
        exact hpl.1
      simp [htype]
  · intro t
    have hmk : ∀ l : List Char, (String.mk l).length = l.length := fun _ => rfl
    constructor
    · intro hlong
      unfold formatSummary
      rw [if_pos hlong]
      refine ⟨rfl, ?_⟩
      rw [hmk, List.length_take]
      have hdl : (jsTrim (collapseNewlines t)).data.length =
          (jsTrim (collapseNewlines t)).length := rfl
      omega
    · unfold formatSummary
      by_cases hlong : (jsTrim (collapseNewlines t)).length > 45
      · rw [if_pos hlong, String.length_append, hmk, List.length_take]
        have : ("..." : String).length = 3 := rfl
        omega
      · rw [if_neg hlong]
        omega

/-- C7(counterexample): on the log [wU1, wU2, wAsst] the summary is derived
from the second user record, not the first non-meta user record as the claim
states; and on a user record whose array content holds a null element the
function raises a TypeError instead of never throwing. -/
theorem generateSummary_counterexample :
    generateSummary [wU1, wU2, wAsst] = JsResult.ok ("second prompt") ∧
    JsResult.ok ("second prompt") ≠ JsResult.ok ("first prompt") ∧
    generateSummary [wNull] = JsResult.thrown := by
  refine ⟨by decide, by decide, by decide⟩

theorem lookup_erase_none (l : List (String × FsNode)) (p : String) :
    (l.filter (fun kv => decide (kv.1 ≠ p))).lookup p = none := by
  induction l with
  | nil => rfl
  | cons kv rest ih =>
    obtain ⟨k, v⟩ := kv
    by_cases hk : k ≠ p
    · rw [List.filter_cons_of_pos (by simpa using hk)]
      have hne : (p == k) = false := by
        simp only [beq_eq_false_iff_ne]
        intro hco
        exact hk hco.symm
      simp only [List.lookup, hne]
      exact ih
    · rw [List.filter_cons_of_neg (by simpa using hk)]
      exact ih

theorem lookup_set_self (files : List (String × FsNode)) (p : String)
    (v : FsNode) :
    ((p, v) :: files.filter (fun kv => decide (kv.1 ≠ p))).lookup p = some v := by
  simp [List.lookup]

theorem writeFile_failing (ws : Workspace) (p c : String) :
    ((ws.writeFile p c).1).failing = ws.failing := by
  unfold Workspace.writeFile
  split <;> rfl

theorem unlink_failing (ws : Workspace) (p : String) :
    ((ws.unlink p).1).failing = ws.failing := by
  unfold Workspace.unlink
  by_cases h : p ∈ ws.failing
  · rw [if_pos h]
  · rw [if_neg h]
    cases hlk : ws.files.lookup p with
    | none => rfl
    | some node => cases node <;> simp [hlk]

theorem applySnapshotStep_failing (snap : SnapshotEntry) (ws : Workspace) :
    ((applySnapshotStep snap ws).1).failing = ws.failing := by
  unfold applySnapshotStep
  cases hk : snap.kind with
  | missing => exact unlink_failing ws snap.filePath
  | file =>
    cases hw : ws.writeFile snap.filePath (snap.content.getD "") with
    | mk w2 ok =>
      have hf := writeFile_failing ws snap.filePath (snap.content.getD "")
      rw [hw] at hf
      simp only [] at hf
      cases ok <;> simp [hf]
  | other => rfl

theorem applySnapshotStep_ok_iff (snap : SnapshotEntry) (w : Workspace) :
    (applySnapshotStep snap w).2 =
      !(decide (snap.kind = SnapKind.file) &&
        decide (snap.filePath ∈ w.failing)) := by
  unfold applySnapshotStep Workspace.writeFile
  cases hk : snap.kind with
  | missing => simp
  | other => simp
  | file =>
    by_cases hf : snap.filePath ∈ w.failing
    · rw [if_pos hf]
      simp [hf]
    · rw [if_neg hf]
      simp [hf]

/-- C8: how one snapshot entry is applied: a missing-kind snapshot never
raises (even when the file is already absent) and, absent injected faults,
deletes the live regular file and leaves the state untouched when the file
is already gone; a file-kind snapshot leaves the live file holding exactly
the captured content, so recording a file and restoring the resulting entry
reproduces the original content byte for byte; an other-kind snapshot leaves
the file system untouched. -/
theorem snapshot_restore_kinds (ws : Workspace) (snap : SnapshotEntry) :
    (snap.kind = SnapKind.missing →
      (applySnapshotStep snap ws).2 = true ∧
      (snap.filePath ∉ ws.failing →
        (∀ c, ws.node snap.filePath = some (FsNode.file c) →
          (applySnapshotStep snap ws).1.node snap.filePath = none) ∧
        (ws.node snap.filePath = none → applySnapshotStep snap ws = (ws, true)))) ∧
    (snap.kind = SnapKind.file → snap.filePath ∉ ws.failing →
      (applySnapshotStep snap ws).1.node snap.filePath =
        some (FsNode.file (snap.content.getD ""))) ∧
    (snap.kind = SnapKind.other → applySnapshotStep snap ws = (ws, true)) ∧
    (∀ (ws0 ws1 : Workspace) (sid tid tn p ts c : String),
      p ∉ ws0.failing → ws0.node p = some (FsNode.file c) → p ∉ ws1.failing →
      (applySnapshotStep (recordWorkspaceSnapshotForTool ws0 sid tid tn p ts)
        ws1).1.node p = some (FsNode.file c)) := by
  refine ⟨?_, ?_, ?_, ?_⟩
  · intro hk
    constructor
    · unfold applySnapshotStep
      simp only [hk]
    · intro hnf
      constructor
      · intro c hc
        unfold applySnapshotStep Workspace.unlink
        simp only [hk]
        rw [if_neg hnf]
        unfold Workspace.node at hc
        simp only [hc]
        exact lookup_erase_none ws.files snap.filePath
      · intro habs
        unfold applySnapshotStep Workspace.unlink
        simp only [hk]
        rw [if_neg hnf]
        unfold Workspace.node at habs
        simp only [habs]
  · intro hk hnf
    unfold applySnapshotStep Workspace.writeFile
    simp only [hk]
    rw [if_neg hnf]
    exact lookup_set_self ws.files snap.filePath _
  · intro hk
    unfold applySnapshotStep
    simp only [hk]
  · intro ws0 ws1 sid tid tn p ts c h0f h0 h1f
    unfold recordWorkspaceSnapshotForTool
    rw [if_neg h0f]
    unfold Workspace.node at h0
    simp only [h0]
    unfold applySnapshotStep Workspace.writeFile
    simp only []
    rw [if_neg h1f]
    exact lookup_set_self ws1.files p _

/-- Witness for C8: applying a missing-kind snapshot to a workspace where the
file exists deletes it without raising. -/
theorem snapshot_restore_kinds_witness :
    (applySnapshotStep wSnapM wWsF).1.node "/f" = none ∧
    (applySnapshotStep wSnapM wWsF).2 = true := by
  have h := snapshot_restore_kinds wWsF wSnapM
  have h1 := h.1 rfl
  refine ⟨?_, h1.1⟩
  exact (h1.2 (by decide)).1 "data" (by decide)

theorem restoreStep_shift (snapLog : List SnapshotEntry) (sid : String)
    (w : Workspace) (acc : RestoreCounts) (i : String) :
    restoreStep snapLog sid (w, acc) i =
      ((restoreStep snapLog sid (w, ⟨0, 0, 0⟩) i).1,
       ⟨acc.restored + (restoreStep snapLog sid (w, ⟨0, 0, 0⟩) i).2.restored,
        acc.missing + (restoreStep snapLog sid (w, ⟨0, 0, 0⟩) i).2.missing,
        acc.errors + (restoreStep snapLog sid (w, ⟨0, 0, 0⟩) i).2.errors⟩) := by
  unfold restoreStep
  cases hlk : snapMapGet snapLog sid i with
  | none => simp
  | some snap =>
    simp only []
    cases hr : applySnapshotStep snap w with
    | mk w2 ok => cases ok <;> simp

theorem restore_fold_spec (snapLog : List SnapshotEntry) (sid : String)
    (F : List String) :
    ∀ (ids : List String) (w : Workspace) (acc : RestoreCounts),
      w.failing = F →
      ((ids.foldl (restoreStep snapLog sid) (w, acc)).1.failing = F ∧
       (ids.foldl (restoreStep snapLog sid) (w, acc)).2.missing =
         acc.missing + (ids.filter (snapMissB snapLog sid)).length ∧
       (ids.foldl (restoreStep snapLog sid) (w, acc)).2.errors =
         acc.errors + (ids.filter (snapErrB snapLog sid F)).length ∧
       (ids.foldl (restoreStep snapLog sid) (w, acc)).2.restored =
         acc.restored + (ids.filter (fun i => !snapMissB snapLog sid i &&
           !snapErrB snapLog sid F i)).length) := by
  intro ids
  induction ids with
  | nil =>
    intro w acc hw
    exact ⟨hw, by simp, by simp, by simp⟩
  | cons i rest ih =>
    intro w acc hw
    rw [List.foldl_cons]
    cases hlk : snapMapGet snapLog sid i with
    | none =>
      have hstep : restoreStep snapLog sid (w, acc) i =
          (w, { acc with missing := acc.missing + 1 }) := by
        unfold restoreStep
        simp only [hlk]
      rw [hstep]
      obtain ⟨f1, f2, f3, f4⟩ := ih w { acc with missing := acc.missing + 1 } hw
      have hm : snapMissB snapLog sid i = true := by simp [snapMissB, hlk]
      have he : snapErrB snapLog sid F i = false := by simp [snapErrB, hlk]
      refine ⟨f1, ?_, ?_, ?_⟩
      · rw [f2, List.filter_cons_of_pos hm]
        simp
        omega
      · rw [f3, List.filter_cons_of_neg (by simp [he])]
      · rw [f4, List.filter_cons_of_neg (by simp [hm])]
    | some snap =>
      have happ := applySnapshotStep_failing snap w
      have hokiff := applySnapshotStep_ok_iff snap w
      cases hr : applySnapshotStep snap w with
      | mk w2 ok =>
        rw [hr] at happ hokiff
        simp only [] at happ hokiff
        have hw2 : w2.failing = F := happ.trans hw
        have hm : snapMissB snapLog sid i = false := by simp [snapMissB, hlk]
        have hE : snapErrB snapLog sid F i =
            (decide (snap.kind = SnapKind.file) &&
             decide (snap.filePath ∈ F)) := by
          simp only [snapErrB, hlk]
        cases hEv : snapErrB snapLog sid F i with
        | false =>
          have hok : ok = true := by
            rw [hokiff, hw]
            rw [hE] at hEv
            simp [hEv]
          subst hok
          have hstep : restoreStep snapLog sid (w, acc) i =
              (w2, { acc with restored := acc.restored + 1 }) := by
            unfold restoreStep
            simp [hlk, hr]
          rw [hstep]
          obtain ⟨f1, f2, f3, f4⟩ :=
            ih w2 { acc with restored := acc.restored + 1 } hw2
          refine ⟨f1, ?_, ?_, ?_⟩
          · rw [f2, List.filter_cons_of_neg (by simp [hm])]
          · rw [f3, List.filter_cons_of_neg (by simp [hEv])]
          · rw [f4, List.filter_cons_of_pos (by simp [hm, hEv])]
            simp
            omega
        | true =>
          have hok : ok = false := by
            rw [hokiff, hw]
            rw [hE] at hEv
            simp [hEv]
          subst hok
          have hstep : restoreStep snapLog sid (w, acc) i =
              (w2, { acc with errors := acc.errors + 1 }) := by
            unfold restoreStep
            simp [hlk, hr]
          rw [hstep]
          obtain ⟨f1, f2, f3, f4⟩ :=
            ih w2 { acc with errors := acc.errors + 1 } hw2
          refine ⟨f1, ?_, ?_, ?_⟩
          · rw [f2, List.filter_cons_of_neg (by simp [hm])]
          · rw [f3, List.filter_cons_of_pos hEv]
            simp
            omega
          · rw [f4, List.filter_cons_of_neg (by simp [hEv])]

theorem three_filter_partition {α : Type} (p q : α → Bool)
    (hpq : ∀ x, p x = true → q x = false) :
    ∀ l : List α,
      (l.filter p).length + (l.filter q).length +
        (l.filter (fun x => !p x && !q x)).length = l.length := by
  intro l
  induction l with
  | nil => rfl
  | cons x xs ih =>
    cases hp : p x with
    | true =>
      have hq := hpq x hp
      rw [List.filter_cons_of_pos hp, List.filter_cons_of_neg (by simp [hq]),
        List.filter_cons_of_neg (by simp [hp])]
      simp only [List.length_cons]
      omega
    | false =>
      cases hq : q x with
      | true =>
        rw [List.filter_cons_of_neg (by simp [hp]), List.filter_cons_of_pos hq,
          List.filter_cons_of_neg (by simp [hq])]
        simp only [List.length_cons]
        omega
      | false =>
        rw [List.filter_cons_of_neg (by simp [hp]),
          List.filter_cons_of_neg (by simp [hq]),
          List.filter_cons_of_pos (by simp [hp, hq])]
        simp only [List.length_cons]
        omega

theorem restore_fold_shift (snapLog : List SnapshotEntry) (sid : String) :
    ∀ (ids : List String) (w : Workspace) (acc : RestoreCounts),
      ids.foldl (restoreStep snapLog sid) (w, acc) =
        ((ids.foldl (restoreStep snapLog sid) (w, ⟨0, 0, 0⟩)).1,
         ⟨acc.restored +
            (ids.foldl (restoreStep snapLog sid) (w, ⟨0, 0, 0⟩)).2.restored,
          acc.missing +
            (ids.foldl (restoreStep snapLog sid) (w, ⟨0, 0, 0⟩)).2.missing,
          acc.errors +
            (ids.foldl (restoreStep snapLog sid) (w, ⟨0, 0, 0⟩)).2.errors⟩) := by
  intro ids
  induction ids with
  | nil =>
    intro w acc
    simp
  | cons i rest ih =>
    intro w acc
    rw [List.foldl_cons, List.foldl_cons]
    cases hs : restoreStep snapLog sid (w, ⟨0, 0, 0⟩) i with
    | mk w1 d =>
      rw [restoreStep_shift snapLog sid w acc i, hs]
      simp only []
      rw [ih w1 ⟨acc.restored + d.restored, acc.missing + d.missing,
        acc.errors + d.errors⟩, ih w1 d]
      simp only [Prod.mk.injEq, RestoreCounts.mk.injEq]
      exact ⟨trivial, by omega, by omega, by omega⟩

/-- C9: restoreWorkspaceFilesFromSnapshots accounts every id exactly once in
the given order: the missing counter is the number of ids absent from the
snapshot map, the error counter is the number of ids whose application hits
an injected I/O fault, the three counters add up to the number of ids (so a
failure never aborts the remaining ids), and the run over a concatenation is
the sequential composition of the runs over the parts with the counters
added - the call is total and never raises for an individual file. -/
theorem restoreSnapshots_accounting (snapLog : List SnapshotEntry)
    (sid : String) (ids : List String) (ws : Workspace) :
    ((restoreWorkspaceFilesFromSnapshots snapLog sid ids ws).2.missing =
      (ids.filter (snapMissB snapLog sid)).length) ∧
    ((restoreWorkspaceFilesFromSnapshots snapLog sid ids ws).2.errors =
      (ids.filter (snapErrB snapLog sid ws.failing)).length) ∧
    ((restoreWorkspaceFilesFromSnapshots snapLog sid ids ws).2.restored +
     (restoreWorkspaceFilesFromSnapshots snapLog sid ids ws).2.missing +
     (restoreWorkspaceFilesFromSnapshots snapLog sid ids ws).2.errors =
      ids.length) ∧
    (∀ ids1 ids2, ids = ids1 ++ ids2 →
      restoreWorkspaceFilesFromSnapshots snapLog sid ids ws =
        ((restoreWorkspaceFilesFromSnapshots snapLog sid ids2
            (restoreWorkspaceFilesFromSnapshots snapLog sid ids1 ws).1).1,
         ⟨(restoreWorkspaceFilesFromSnapshots snapLog sid ids1 ws).2.restored +
            (restoreWorkspaceFilesFromSnapshots snapLog sid ids2
              (restoreWorkspaceFilesFromSnapshots snapLog sid ids1 ws).1).2.restored,
          (restoreWorkspaceFilesFromSnapshots snapLog sid ids1 ws).2.missing +
            (restoreWorkspaceFilesFromSnapshots snapLog sid ids2
              (restoreWorkspaceFilesFromSnapshots snapLog sid ids1 ws).1).2.missing,
          (restoreWorkspaceFilesFromSnapshots snapLog sid ids1 ws).2.errors +
            (restoreWorkspaceFilesFromSnapshots snapLog sid ids2
              (restoreWorkspaceFilesFromSnapshots snapLog sid ids1 ws).1).2.errors⟩)) := by
  obtain ⟨f1, f2, f3, f4⟩ :=
    restore_fold_spec snapLog sid ws.failing ids ws ⟨0, 0, 0⟩ rfl
  have hpq : ∀ i, snapMissB snapLog sid i = true →
      snapErrB snapLog sid ws.failing i = false := by
    intro i hmi
    unfold snapMissB at hmi
    unfold snapErrB
    cases hlk : snapMapGet snapLog sid i with
    | none => rfl
    | some s =>
      rw [hlk] at hmi
      simp at hmi
  refine ⟨?_, ?_, ?_, ?_⟩
  · unfold restoreWorkspaceFilesFromSnapshots
    rw [f2]
    simp
  · unfold restoreWorkspaceFilesFromSnapshots
    rw [f3]
    simp
  · unfold restoreWorkspaceFilesFromSnapshots
    rw [f2, f3, f4]
    have hpart := three_filter_partition (snapMissB snapLog sid)
      (snapErrB snapLog sid ws.failing) hpq ids
    simp only [show (⟨0, 0, 0⟩ : RestoreCounts).missing = 0 from rfl,
      show (⟨0, 0, 0⟩ : RestoreCounts).errors = 0 from rfl,
      show (⟨0, 0, 0⟩ : RestoreCounts).restored = 0 from rfl, Nat.zero_add]
    omega
  · intro ids1 ids2 he
    subst he
    unfold restoreWorkspaceFilesFromSnapshots
    rw [List.foldl_append]
    cases h1 : List.foldl (restoreStep snapLog sid) (ws, ⟨0, 0, 0⟩) ids1 with
    | mk wa ca =>
      rw [restore_fold_shift snapLog sid ids2 wa ca]

/-- Witness for C9 at a concrete snapshot log: one covered id, one uncovered
id, and one covered id with an injected write fault. -/
theorem restoreSnapshots_accounting_witness :
    (restoreWorkspaceFilesFromSnapshots
      [⟨"s", "t1", "Write", "/a", "ts", SnapKind.file, some "x"⟩,
       ⟨"s", "t2", "Write", "/b", "ts", SnapKind.file, some "y"⟩]
      "s" ["t1", "zz", "t2"] ⟨[], ["/b"]⟩).2 = ⟨1, 1, 1⟩ ∧
    restoreWorkspaceFilesFromSnapshots
      [⟨"s", "t1", "Write", "/a", "ts", SnapKind.file, some "x"⟩,
       ⟨"s", "t2", "Write", "/b", "ts", SnapKind.file, some "y"⟩]
      "s" (["t1"] ++ ["zz", "t2"]) ⟨[], ["/b"]⟩ =
      ((restoreWorkspaceFilesFromSnapshots
          [⟨"s", "t1", "Write", "/a", "ts", SnapKind.file, some "x"⟩,
           ⟨"s", "t2", "Write", "/b", "ts", SnapKind.file, some "y"⟩]
          "s" ["zz", "t2"]
          (restoreWorkspaceFilesFromSnapshots
            [⟨"s", "t1", "Write", "/a", "ts", SnapKind.file, some "x"⟩,
             ⟨"s", "t2", "Write", "/b", "ts", SnapKind.file, some "y"⟩]
            "s" ["t1"] ⟨[], ["/b"]⟩).1).1,
       ⟨1 + 0, 0 + 1, 0 + 1⟩) := by
  constructor
  · decide
  · have h := (restoreSnapshots_accounting
      [⟨"s", "t1", "Write", "/a", "ts", SnapKind.file, some "x"⟩,
       ⟨"s", "t2", "Write", "/b", "ts", SnapKind.file, some "y"⟩]
      "s" (["t1"] ++ ["zz", "t2"]) ⟨[], ["/b"]⟩).2.2.2 ["t1"] ["zz", "t2"] rfl
    rw [h]
    decide

theorem filterMap_length_of_all_isSome {α β : Type} (f : α → Option β)
    (l : List α) (h : ∀ a ∈ l, (f a).isSome) :
    (l.filterMap f).length = l.length := by
  induction l with
  | nil => rfl
  | cons x xs ih =>
    have hx := h x (by simp)
    cases hf : f x with
    | none =>
      rw [hf] at hx
      simp at hx
    | some b =>
      rw [List.filterMap_cons, hf]
      simp only [List.length_cons]
      rw [ih (fun a ha => h a (by simp [ha]))]

/-- C4(amended): on a log whose records form a single linear parent chain in
file order, rewinding to any in-range visible index k and then re-reading
the rewound log through getSession returns exactly the k messages
restoreCheckpoint handed back as the restored prefix. -/
theorem restoreCheckpoint_getSession_roundtrip (env : RewindEnv)
    (snapLog : List SnapshotEntry) (msgs : List SessionMessage) (ws : Workspace)
    (k : Nat)
    (hlin : LinearLog msgs)
    (hk : k < (msgs.filter isVisibleRecord).length) :
    ∃ out, restoreCheckpoint env snapLog msgs ws (k : Int) = some out ∧
      getSession out.log = some out.returned ∧
      out.returned =
        ((msgs.filter isVisibleRecord).take k).filterMap convertMessage ∧
      out.returned.length = k := by
  have hne : msgs ≠ [] := by
    intro he
    subst he
    simp at hk
  have hch := buildChain_linear hlin hne
  have h0 : (0 : Int) ≤ (k : Int) := by omega
  have hlt : (k : Int) < ((msgs.filter isVisibleRecord).length : Int) := by
    exact_mod_cast hk
  have heval := restoreCheckpoint_ok_eval env snapLog msgs ws (k : Int) msgs
    hne hch h0 hlt
  have htn : ((k : Int)).toNat = k := rfl
  obtain ⟨i, hi, hqi, hget, htake⟩ := filter_index_decomp isVisibleRecord msgs k hk
  have htarget : (msgs.filter isVisibleRecord).getD k dfltMsg =
      msgs.get ⟨i, hi⟩ := by
    rw [List.getD_eq_get _ _ hk]
    exact hget
  have hlin0 := hlin
  obtain ⟨hnd, hneu, hhd, hchB⟩ := hlin0
  have htfi : targetFilePos msgs ((msgs.get ⟨i, hi⟩).uuid) = i := by
    unfold targetFilePos
    exact findIdx_uuid_nodup hnd i hi
  have hall : ∀ a ∈ (msgs.filter isVisibleRecord).take k,
      (convertMessage a).isSome = true := by
    intro a ha
    have h1 := (List.mem_filter.mp (List.mem_of_mem_take ha)).2
    simpa [isVisibleRecord] using h1
  have hretlen :
      (((msgs.filter isVisibleRecord).take k).filterMap convertMessage).length
        = k := by
    rw [filterMap_length_of_all_isSome _ _ hall, List.length_take]
    omega
  refine ⟨_, heval, ?_, ?_, ?_⟩
  · -- getSession of the rewound log equals the restored prefix
    show getSession (truncatedLog env msgs (computeCutIndex msgs
      ((msgs.filter isVisibleRecord).getD (k : Int).toNat dfltMsg))) =
      some (((msgs.filter isVisibleRecord).take (k : Int).toNat).filterMap
        convertMessage)
    rw [htn, htarget]
    cases i with
    | zero =>
      have hpz : (msgs.get ⟨0, hi⟩).parentUuid = none := by
        cases msgs with
        | nil => simp at hi
        | cons x xs => simpa using hhd
      have hjp : jsParent (msgs.get ⟨0, hi⟩) = none := by
        unfold jsParent
        rw [hpz]
      have hcut : computeCutIndex msgs (msgs.get ⟨0, hi⟩) = -1 := by
        unfold computeCutIndex
        simp only [hjp, htfi]
        decide
      rw [hcut, truncatedLog_eq env msgs _ hne, if_neg (by decide)]
      have hk0 : k = 0 := by
        have h1 : (msgs.filter isVisibleRecord).take k = [] := by
          rw [← htake]
          simp
        rw [List.take_eq_nil_iff] at h1
        cases h1 with
        | inl h2 => exact h2
        | inr h2 =>
          rw [h2] at hk
          simp at hk
      subst hk0
      rfl
    | succ j =>
      have hj : j < msgs.length := by omega
      have hch' := (linearChainB_iff_chain msgs).mp hchB
      rw [List.chain'_iff_get] at hch'
      have hpar := hch' j (by omega)
      have huuid : (msgs.get ⟨j, hj⟩).uuid ≠ "" :=
        hneu _ (List.get_mem msgs j hj)
      have hjp : jsParent (msgs.get ⟨j + 1, hi⟩) =
          some ((msgs.get ⟨j, hj⟩).uuid) := by
        unfold jsParent
        rw [hpar]
        exact if_neg huuid
      have hpfi : targetFilePos msgs ((msgs.get ⟨j, hj⟩).uuid) = j := by
        unfold targetFilePos
        exact findIdx_uuid_nodup hnd j hj
      have hcut : computeCutIndex msgs (msgs.get ⟨j + 1, hi⟩) = (j : Int) := by
        unfold computeCutIndex
        simp only [hjp, hpfi]
        rw [if_pos hj]
      rw [hcut, truncatedLog_eq env msgs _ hne, if_pos (by omega)]
      have hton : ((j : Int).toNat + 1) = j + 1 := rfl
      rw [hton]
      have hne2 : msgs.take (j + 1) ≠ [] := by
        cases msgs with
        | nil => exact absurd rfl hne
        | cons x xs => simp [List.take_succ_cons]
      have hch2 := buildChain_linear (linearLog_take hlin (j + 1)) hne2
      unfold getSession
      rw [hch2]
      show some ((msgs.take (j + 1)).filterMap convertMessage) = _
      rw [filterMap_eq_filterMap_filter convertMessage (msgs.take (j + 1))]
      rw [show (msgs.take (j + 1)).filter (fun a => (convertMessage a).isSome)
        = (msgs.filter isVisibleRecord).take k from htake]
  · show ((msgs.filter isVisibleRecord).take (k : Int).toNat).filterMap
      convertMessage = _
    rw [htn]
  · show (((msgs.filter isVisibleRecord).take (k : Int).toNat).filterMap
      convertMessage).length = k
    rw [htn]
    exact hretlen

/-- Witness for C4(amended) on the linear three-record log at index 2. -/
theorem restoreCheckpoint_getSession_roundtrip_witness :
    (restoreCheckpoint wEnv [] [wRecA, wRecB, wRecC] wWs ((2 : Nat) : Int)).bind
      (fun o => getSession o.log) =
    (restoreCheckpoint wEnv [] [wRecA, wRecB, wRecC] wWs ((2 : Nat) : Int)).map
      (fun o => o.returned) := by
  obtain ⟨out, h1, h2, h3, h4⟩ := restoreCheckpoint_getSession_roundtrip wEnv []
    [wRecA, wRecB, wRecC] wWs 2 (by decide) (by decide)
  rw [h1]
  show getSession out.log = some out.returned
  exact h2

/-- C4(counterexample): on the well-formed but non-linear log
[wRecA, wRecR] (two parentless user records), rewinding to index 0 returns
an empty restored prefix, yet getSession on the rewound log returns one
message (the leaf of the remaining record), so the as-stated claim fails. -/
theorem restoreCheckpoint_getSession_mismatch :
    (restoreCheckpoint wEnv [] [wRecA, wRecR] wWs 0).map (fun o => o.returned) =
      some [] ∧
    (restoreCheckpoint wEnv [] [wRecA, wRecR] wWs 0).bind
      (fun o => getSession o.log) =
      some [ConvMessage.user (some ⟨MsgContent.str "hello A", none⟩) "a" none] ∧
    some [ConvMessage.user (some ⟨MsgContent.str "hello A", none⟩) "a" none] ≠
      (some [] : Option (List ConvMessage)) := by
  refine ⟨by decide, by decide, by decide⟩


/-- Witness for C7(amended): the selection equation at a concrete log, and
the truncation equation at a concrete 50-character text. -/
theorem generateSummary_follows_selection_witness :
    generateSummary [wU1, wU2, wAsst] = summarySpec [wU1, wU2, wAsst] ∧
    formatSummary (String.mk (List.replicate 50 'x')) =
      String.mk ((jsTrim (collapseNewlines
        (String.mk (List.replicate 50 'x')))).data.take 45) ++ "..." := by
  have h := generateSummary_follows_selection [wU1, wU2, wAsst]
  refine ⟨h.1, ?_⟩
  exact ((h.2 (String.mk (List.replicate 50 'x'))).1 (by decide)).1
